import Mathlib

/-!
Verification of the `proxy_pool` reusable-object pool (source: `src/main.ts`,
class `ProxyPool`).

Shallow embedding notes.

* The pool's mutable fields (`ctxPool`, `pool`, `available`, `_capacity`) become
  fields of a `ProxyPool` structure; each method becomes a function from pool
  state to pool state (wrapped in `Except` where the method can throw).
* A slot's context object `Ctx<T> = \x7b data, isFree \x7d` becomes the structure
  `Ctx A` with `data : Option A` (`null` is `none`).
* Handle (Proxy object) identity is modelled by a natural-number id drawn from
  a fresh counter `nextHandle`; the JS `===` comparison in `release` becomes
  equality of ids.  The entries of the `pool` array are `Option Nat`: `some id`
  for a real Proxy, `none` for the filler value `0` that `_prune` leaves in
  positions of the preallocated array it never overwrites (reading `.isFree`
  on that filler yields `undefined`, i.e. it behaves as a non-free slot that
  compares unequal to every real handle, which is what `(⟨none, false⟩, none)`
  does here).
* `growthFactor` is a JS number; the claims only exercise the default `0.2`
  with small integer operands, where binary floating point and exact rational
  arithmetic agree, so it is embedded as the exact rational `gfNum / gfDen`
  (`Math.ceil` of a product becomes exact rational ceiling).
* `maxSize` defaults to `Infinity`; embedded as `Option Nat` with `none` for
  `Infinity`.
* `available` is a JS number that (in reachable states) stays an integer; it is
  embedded as `Int` so that states where it exceeds `capacity` (double release)
  are represented faithfully.
* Timers (`setInterval` / `setTimeout` scheduling of automatic prunes) only
  decide *when* `_prune` runs; they do not touch the arena state inside
  `release` itself and are not modelled.  The claims treat an automatic prune
  as a `prune` step in an operation sequence.
-/

/-- The `PruneStrategy` enum from the source. -/
inductive PruneStrategy where
  | onFixedInterval
  | onUsageThreshold
  | manual
deriving DecidableEq, Repr

/-- The configuration record held in `this.config`.  The timing fields of the
non-manual prune configurations (`intervalMs`, `threshold`, `gracePeriodMs`,
`graceThreshold`) drive only the timers, which are not modelled; only the
strategy tag is kept. -/
structure Config where
  initialSize : Nat
  /-- Field `maxSize`; `none` models the default `Infinity`. -/
  maxSize : Option Nat
  /-- numerator of the exact rational `growthFactor` -/
  gfNum : Nat
  /-- denominator of the exact rational `growthFactor` (the default `0.2` is `1/5`) -/
  gfDen : Nat
  strategy : PruneStrategy
deriving DecidableEq, Repr

/-- Models `validateConfig` from the source, as a Bool predicate: it throws unless
`initialSize > 0`, `maxSize > initialSize` (with `Infinity` passing), and
`growthFactor >= 0` (automatic here since `gfNum : Nat`); `gfDen > 0` states
that the growth factor is a well-formed rational. -/
def validConfig (cfg : Config) : Bool :=
  decide (0 < cfg.initialSize) &&
    (match cfg.maxSize with
      | none => true
      | some m => decide (cfg.initialSize < m)) &&
    decide (0 < cfg.gfDen)

/-- The slot context cell `Ctx<T>`. -/
structure Ctx (A : Type) where
  data : Option A
  isFree : Bool
deriving DecidableEq, Repr

/-- The mutable state of a `ProxyPool` instance. -/
structure ProxyPool (A : Type) where
  /-- Array `this.ctxPool`. -/
  ctxPool : List (Ctx A)
  /-- Array `this.pool`: the paired handle (Proxy) at each index, by id; `none` is
  the numeric filler `0` left by `_prune`. -/
  pool : List (Option Nat)
  /-- Counter `this.available`. -/
  available : Int
  /-- Counter `this._capacity`. -/
  capacity : Nat
  /-- fresh-id source for newly constructed Proxy objects (model artefact:
  each `new Proxy(...)` creates a distinct object) -/
  nextHandle : Nat
deriving DecidableEq, Repr

/-- Errors a pool method can raise. -/
inductive PoolError where
  /-- Error of `release`: "Attempting to release object not belonging to pool". -/
  | unownedHandle
  /-- Error of `prune`: "Manual pruning requires the prune strategy to be set to MANUAL.". -/
  | wrongStrategy
  /-- Fault of `get`: the free-slot scan found nothing, `findIndex` returned `-1`, and
  `this.ctxPool[-1].isFree = false` raises a `TypeError`. -/
  | noFreeSlot
deriving DecidableEq, Repr

namespace ProxyPool

/-- Models `Math.ceil(c * growthFactor)` for a natural `c` and the exact rational
growth factor `gfNum / gfDen`. -/
def ceilMulGF (cfg : Config) (c : Nat) : Nat :=
  (c * cfg.gfNum + cfg.gfDen - 1) / cfg.gfDen

/-- Ceiling of `a / b` for an integer `a` and positive natural `b`. -/
def intCeilDiv (a : Int) (b : Nat) : Int :=
  (a + b - 1) / b

/-- The `toGrowBy` value in `grow`: `Math.max(0, Math.min(by, maxSize - capacity))`
(the `max 0` is Nat truncation of the subtraction; `none` is `Infinity`). -/
def growAmount (cfg : Config) (n cap : Nat) : Nat :=
  match cfg.maxSize with
  | none => n
  | some m => min n (m - cap)

/-- Method `this.grow(by)`: appends `max(0, min(by, maxSize - capacity))` fresh free
slots, each paired with a newly constructed Proxy handle, and bumps
`_capacity` and `available` by the amount actually added. -/
def grow (cfg : Config) (n : Nat) (s : ProxyPool A) : ProxyPool A :=
  let toGrowBy : Nat := growAmount cfg n s.capacity
  { ctxPool := s.ctxPool ++ List.replicate toGrowBy ⟨none, true⟩
    pool := s.pool ++ (List.range toGrowBy).map (fun j => some (s.nextHandle + j))
    available := s.available + toGrowBy
    capacity := s.capacity + toGrowBy
    nextHandle := s.nextHandle + toGrowBy }

/-- The constructor body after `validateConfig`: starting from empty state,
`grow(initialSize)` when `initialSize > 0`. -/
def mkPool (cfg : Config) : ProxyPool A :=
  if 0 < cfg.initialSize then grow cfg cfg.initialSize ⟨[], [], 0, 0, 1⟩
  else ⟨[], [], 0, 0, 1⟩

/-- Getter `this.usedCapacity`: `_capacity - available` (a JS number, possibly
negative in corrupted states, hence `Int`). -/
def usedCapacity (s : ProxyPool A) : Int :=
  (s.capacity : Int) - s.available

/-- The first step of `this.get(...)`: `if (this.available <= 0)` grow by
`Math.ceil(this._capacity * this.config.growthFactor) + 1`. -/
def growIfEmpty (cfg : Config) (s : ProxyPool A) : ProxyPool A :=
  if s.available ≤ 0 then grow cfg (ceilMulGF cfg s.capacity + 1) s else s

/-- Method `this.get(...args)`: grow by `ceil(capacity * growthFactor) + 1` when
`available <= 0`, then scan `ctxPool` for the first free slot, bind the
arguments into it, mark it used, decrement `available`, and return
`this.pool[index]`.  When the scan finds nothing the JS code faults
(`TypeError` on index `-1`), modelled as `.error .noFreeSlot`. -/
def get (cfg : Config) (a : A) (s : ProxyPool A) :
    Except PoolError (Option Nat × ProxyPool A) :=
  match (growIfEmpty cfg s).ctxPool.findIdx? (fun c => c.isFree) with
  | none => .error .noFreeSlot
  | some i =>
      .ok (((growIfEmpty cfg s).pool.get? i).join,
        { growIfEmpty cfg s with
            ctxPool := (growIfEmpty cfg s).ctxPool.set i ⟨some a, false⟩
            available := (growIfEmpty cfg s).available - 1 })

/-- Method `this.release(obj)`: locate the slot whose paired handle is identical to
`obj`; throw when there is none; otherwise clear the context, mark the slot
free and increment `available`.  (Under `ON_USAGE_THRESHOLD` this may also arm
a debounce timer, which is pure scheduling and not modelled.) -/
def release (_cfg : Config) (h : Nat) (s : ProxyPool A) :
    Except PoolError (ProxyPool A) :=
  match s.pool.findIdx? (fun e => e == some h) with
  | none => .error .unownedHandle
  | some i =>
      .ok { s with
              ctxPool := s.ctxPool.set i ⟨none, true⟩
              available := s.available + 1 }

/-- The `(slot, handle)` pairs scanned by `_prune`'s loops
(`index < this._capacity`). -/
def scannedPairs (s : ProxyPool A) : List (Ctx A × Option Nat) :=
  (s.ctxPool.zip s.pool).take s.capacity

/-- The used pairs `_prune`'s first loop copies, in original index order. -/
def usedPairs (s : ProxyPool A) : List (Ctx A × Option Nat) :=
  (scannedPairs s).filter (fun p => !p.1.isFree)

/-- The free pairs `_prune`'s second loop draws from, in original index order. -/
def freePairs (s : ProxyPool A) : List (Ctx A × Option Nat) :=
  (scannedPairs s).filter (fun p => p.1.isFree)

/-- The `newCapacity` computed in `_prune`:
`Math.max(initialSize, Math.ceil(usedCapacity * (1 + growthFactor)))`. -/
def targetCapacity (cfg : Config) (s : ProxyPool A) : Nat :=
  (max (cfg.initialSize : Int)
    (intCeilDiv (s.usedCapacity * ((cfg.gfDen : Int) + cfg.gfNum)) cfg.gfDen)).toNat

/-- The filler pair a position of the preallocated `Array(newCapacity).fill(0)`
holds when `_prune`'s loops never overwrite it: the number `0` in both arrays,
whose `.isFree` reads as `undefined` (not free) and which is `===` to no
handle. -/
def fillerPair (A : Type) : Ctx A × Option Nat := (⟨none, false⟩, none)

/-- The free pairs `_prune`'s second loop actually copies: it checks
`filled === newCapacity` (an equality test) before each copy, so when the used
pairs alone already overshoot `newCapacity` the test never fires and *every*
free pair is copied; otherwise exactly `newCapacity - used` of them are. -/
def pruneTaken (cfg : Config) (s : ProxyPool A) : List (Ctx A × Option Nat) :=
  if targetCapacity cfg s < (usedPairs s).length then freePairs s
  else (freePairs s).take (targetCapacity cfg s - (usedPairs s).length)

/-- The value of `filled` after both of `_prune`'s copy loops. -/
def pruneFilled (cfg : Config) (s : ProxyPool A) : Nat :=
  (usedPairs s).length + (pruneTaken cfg s).length

/-- The rebuilt `(slot, handle)` array contents: used pairs first, then the
copied free pairs, then whatever positions of the `Array(newCapacity).fill(0)`
preallocation were never overwritten. -/
def prunedPairs (cfg : Config) (s : ProxyPool A) : List (Ctx A × Option Nat) :=
  usedPairs s ++ pruneTaken cfg s ++
    List.replicate (targetCapacity cfg s - pruneFilled cfg s) (fillerPair A)

/-- Method `this._prune()`: no-op when `capacity <= initialSize`; otherwise rebuild
both arrays at `newCapacity` from `prunedPairs`, then
`_capacity := newCapacity` and `available := filled - used`. -/
def _prune (cfg : Config) (s : ProxyPool A) : ProxyPool A :=
  if s.capacity ≤ cfg.initialSize then s
  else
    { ctxPool := (prunedPairs cfg s).map Prod.fst
      pool := (prunedPairs cfg s).map Prod.snd
      available := (pruneFilled cfg s : Int) - ((usedPairs s).length : Int)
      capacity := targetCapacity cfg s
      nextHandle := s.nextHandle }

/-- Method `this.prune()`: throws unless the strategy is `MANUAL`, otherwise runs
`_prune`. -/
def prune (cfg : Config) (s : ProxyPool A) : Except PoolError (ProxyPool A) :=
  match cfg.strategy with
  | .manual => .ok (_prune cfg s)
  | _ => .error .wrongStrategy

end ProxyPool

/-- Scenario harness: `n` sequential checkouts, collecting the returned
handles in order. -/
def getMany (cfg : Config) : Nat → ProxyPool Nat →
    Except PoolError (List (Option Nat) × ProxyPool Nat)
  | 0, s => .ok ([], s)
  | n + 1, s =>
    match ProxyPool.get cfg 0 s with
    | .error e => .error e
    | .ok (h, s') =>
      match getMany cfg n s' with
      | .error e => .error e
      | .ok (hs, s'') => .ok (h :: hs, s'')

/-- Scenario harness: release the listed handles in order. -/
def releaseMany (cfg : Config) : List (Option Nat) → ProxyPool Nat →
    Except PoolError (ProxyPool Nat)
  | [], s => .ok s
  | h :: t, s =>
    match h with
    | none => .error .unownedHandle
    | some n =>
      match ProxyPool.release cfg n s with
      | .error e => .error e
      | .ok s' => releaseMany cfg t s'

/-- Scenario harness for scenario D: one round checks out two handles and then
releases both; `rounds` iterates this, collecting each round's handle pair. -/
def rounds (cfg : Config) : Nat → ProxyPool Nat →
    Except PoolError (List (List (Option Nat)) × ProxyPool Nat)
  | 0, s => .ok ([], s)
  | n + 1, s =>
    match getMany cfg 2 s with
    | .error e => .error e
    | .ok (hs, s1) =>
      match releaseMany cfg hs s1 with
      | .error e => .error e
      | .ok s2 =>
        match rounds cfg n s2 with
        | .error e => .error e
        | .ok (hss, s3) => .ok (hs :: hss, s3)

/-- Scenario configuration with `initialSize = 1` and the default growth
factor `0.2 = 1/5`, unbounded `maxSize`, manual pruning (scenarios A/B/C). -/
def cfgA : Config := ⟨1, none, 1, 5, .manual⟩

/-- Like `cfgA` but with `maxSize = 2`, to exhaust the pool. -/
def cfgM2 : Config := ⟨1, some 2, 1, 5, .manual⟩

/-- Scenario configuration with `initialSize = 2` (scenario D). -/
def cfgD : Config := ⟨2, none, 1, 5, .manual⟩

/-- Like `cfgA` but with the `ON_FIXED_INTERVAL` prune strategy. -/
def cfgFI : Config := ⟨1, none, 1, 5, .onFixedInterval⟩

deriving instance DecidableEq for Except

/-- Comparison `c < m` where `m : Option Nat` models a possibly-infinite `maxSize`
(`none` is `Infinity`, which every natural is below). -/
def ltMax (c : Nat) : Option Nat → Bool
  | none => true
  | some m => c < m

/-- Comparison `c ≤ m` with `none` as `Infinity`. -/
def leMax (c : Nat) : Option Nat → Bool
  | none => true
  | some m => c ≤ m

/-- Minimum `min n m` with `none` as `Infinity` (capping a capacity at `maxSize`). -/
def capMin (n : Nat) : Option Nat → Nat
  | none => n
  | some m => min n m

/-- Number of slots whose `isFree` flag is set. -/
def freeCount (l : List (Ctx A)) : Nat := l.countP (fun c => c.isFree)

/-- The well-formedness invariant the pool maintains under correct use: both
arrays have exactly `_capacity` entries and `available` counts the free
slots. -/
def PoolInv (s : ProxyPool A) : Prop :=
  s.ctxPool.length = s.capacity ∧ s.pool.length = s.capacity ∧
    s.available = (freeCount s.ctxPool : Int)

/-- The handle `h` is owned by the pool and its slot is currently checked
out: the identity scan of `release` finds it at an index whose slot is not
free. -/
def inUse (s : ProxyPool A) (h : Nat) : Prop :=
  ∃ i c, s.pool.findIdx? (fun e => e == some h) = some i ∧
    s.ctxPool[i]? = some c ∧ c.isFree = false

/-- States reachable from construction by sequences of checkout, release and
prune operations.  `allowPrune` selects whether `prune` steps are permitted;
when `disciplined` is `true` every release must target an owned handle whose
slot is currently in use (the intended checkout/release protocol), while
`false` places no restriction (any release the code accepts, including double
releases). -/
inductive Reach (cfg : Config) (allowPrune disciplined : Bool) :
    ProxyPool A → Prop where
  | init : Reach cfg allowPrune disciplined (ProxyPool.mkPool cfg)
  | step_get {s s' : ProxyPool A} {a : A} {h : Option Nat} :
      Reach cfg allowPrune disciplined s →
      ProxyPool.get cfg a s = .ok (h, s') →
      Reach cfg allowPrune disciplined s'
  | step_release {s s' : ProxyPool A} {h : Nat} :
      Reach cfg allowPrune disciplined s →
      (disciplined = true → inUse s h) →
      ProxyPool.release cfg h s = .ok s' →
      Reach cfg allowPrune disciplined s'
  | step_prune {s s' : ProxyPool A} :
      allowPrune = true →
      Reach cfg allowPrune disciplined s →
      ProxyPool.prune cfg s = .ok s' →
      Reach cfg allowPrune disciplined s'

/-- State of a `cfgA` pool after one checkout. -/
def sA1 : ProxyPool Nat := ⟨[⟨some 0, false⟩], [some 1], 0, 1, 2⟩

/-- State of a `cfgA` pool after one checkout and one release. -/
def sA2 : ProxyPool Nat := ⟨[⟨none, true⟩], [some 1], 1, 1, 2⟩

/-- State of a `cfgA` pool after one checkout and a double release of the same
handle: `available = 2` exceeds `capacity = 1`. -/
def sBadA : ProxyPool Nat := ⟨[⟨none, true⟩], [some 1], 2, 1, 2⟩

/-- State of a `cfgA` pool after three checkouts: three used slots,
`capacity = 3`, `available = 0`. -/
def s3A : ProxyPool Nat :=
  ⟨[⟨some 0, false⟩, ⟨some 0, false⟩, ⟨some 0, false⟩],
    [some 1, some 2, some 3], 0, 3, 4⟩

/-- State of a `cfgM2` pool after one checkout. -/
def tM1 : ProxyPool Nat := ⟨[⟨some 0, false⟩], [some 1], 0, 1, 2⟩

/-- State of a `cfgM2` pool after two checkouts: at `maxSize = 2`, fully
used. -/
def tM2 : ProxyPool Nat :=
  ⟨[⟨some 0, false⟩, ⟨some 0, false⟩], [some 1, some 2], 0, 2, 3⟩

/-- Result of pruning `tM2`: the target capacity `⌈2 * 1.2⌉ = 3` exceeds
`maxSize = 2`, and the rebuilt table carries a filler third entry. -/
def tM3 : ProxyPool Nat :=
  ⟨[⟨some 0, false⟩, ⟨some 0, false⟩, ⟨none, false⟩],
    [some 1, some 2, none], 0, 3, 3⟩

/-- A well-formed two-slot pool with both slots free (witness state). -/
def sW2 : ProxyPool Nat :=
  ⟨[⟨none, true⟩, ⟨none, true⟩], [some 1, some 2], 2, 2, 3⟩


/-! ## General list lemmas -/

theorem countP_set_add {α : Type} (p : α → Bool) (l : List α) (i : Nat) (a : α)
    (hi : i < l.length) :
    (l.set i a).countP p + (if p l[i] then 1 else 0)
      = l.countP p + (if p a then 1 else 0) := by
  induction l generalizing i with
  | nil => simp at hi
  | cons x xs ih =>
    cases i with
    | zero => simp [List.countP_cons]; split_ifs <;> omega
    | succ n =>
      have hn : n < xs.length := by simpa using hi
      have h2 := ih n hn
      simp only [List.set_cons_succ, List.countP_cons, List.getElem_cons_succ]
      split_ifs at h2 ⊢ <;> omega

theorem countP_add_countP_not {α : Type} (p : α → Bool) (l : List α) :
    l.countP p + l.countP (fun a => !(p a)) = l.length := by
  induction l with
  | nil => simp
  | cons x xs ih =>
    simp only [List.countP_cons, List.length_cons]
    by_cases h : p x = true <;> simp [h] <;> omega

theorem zip_of_map_fst_snd {α β : Type} (l : List (α × β)) :
    (l.map Prod.fst).zip (l.map Prod.snd) = l := by
  induction l with
  | nil => rfl
  | cons x xs ih => simp [List.zip_cons_cons, ih]

theorem countP_zip_left {α β : Type} (q : α → Bool) :
    ∀ (l1 : List α) (l2 : List β), l1.length = l2.length →
      (l1.zip l2).countP (fun p => q p.1) = l1.countP q := by
  intro l1
  induction l1 with
  | nil => simp
  | cons x xs ih =>
    intro l2 h
    cases l2 with
    | nil => simp at h
    | cons y ys =>
      simp [List.zip_cons_cons, List.countP_cons, ih ys (by simpa using h)]

/-! ## Facts about `grow`, `mkPool`, `get`, `release` -/

namespace ProxyPool

theorem grow_capacity (cfg : Config) (n : Nat) (s : ProxyPool A) :
    (grow cfg n s).capacity = s.capacity + growAmount cfg n s.capacity := rfl

theorem grow_available (cfg : Config) (n : Nat) (s : ProxyPool A) :
    (grow cfg n s).available = s.available + growAmount cfg n s.capacity := rfl

theorem grow_ctxPool (cfg : Config) (n : Nat) (s : ProxyPool A) :
    (grow cfg n s).ctxPool
      = s.ctxPool ++ List.replicate (growAmount cfg n s.capacity) ⟨none, true⟩ := rfl

theorem poolInv_grow (cfg : Config) (n : Nat) {s : ProxyPool A}
    (h : PoolInv s) : PoolInv (grow cfg n s) := by
  obtain ⟨h1, h2, h3⟩ := h
  refine ⟨?_, ?_, ?_⟩
  · simp [grow, h1]
  · simp [grow, h2]
  · simp only [grow, freeCount, List.countP_append, List.countP_replicate]
    simp only [freeCount] at h3
    rw [h3]
    push_cast
    ring

theorem poolInv_mkPool (cfg : Config) : PoolInv (mkPool cfg : ProxyPool A) := by
  have hbase : PoolInv (⟨[], [], 0, 0, 1⟩ : ProxyPool A) := by
    refine ⟨rfl, rfl, by simp [freeCount]⟩
  unfold mkPool
  split
  · exact poolInv_grow _ _ hbase
  · exact hbase

theorem get_ok_elim {cfg : Config} {a : A} {s : ProxyPool A}
    {h : Option Nat} {s' : ProxyPool A}
    (hok : get cfg a s = .ok (h, s')) :
    ∃ i, (growIfEmpty cfg s).ctxPool.findIdx? (fun c => c.isFree) = some i ∧
      h = ((growIfEmpty cfg s).pool.get? i).join ∧
      s' = { growIfEmpty cfg s with
               ctxPool := (growIfEmpty cfg s).ctxPool.set i ⟨some a, false⟩
               available := (growIfEmpty cfg s).available - 1 } := by
  unfold get at hok
  split at hok
  · cases hok
  · rename_i i heq
    injection hok with hok
    injection hok with hok1 hok2
    exact ⟨i, heq, hok1.symm, hok2.symm⟩

theorem get_capacity_of_ok {cfg : Config} {a : A} {s : ProxyPool A}
    {h : Option Nat} {s' : ProxyPool A}
    (hok : get cfg a s = .ok (h, s')) :
    s'.capacity = (growIfEmpty cfg s).capacity := by
  obtain ⟨i, _, _, hs⟩ := get_ok_elim hok
  rw [hs]

theorem get_ok_of_free {cfg : Config} {a : A} {s : ProxyPool A}
    (hfree : ∃ c ∈ (growIfEmpty cfg s).ctxPool, c.isFree = true) :
    ∃ r, get cfg a s = .ok r := by
  have hsome : ((growIfEmpty cfg s).ctxPool.findIdx? (fun c => c.isFree)).isSome := by
    rw [List.findIdx?_isSome, List.any_eq_true]
    exact hfree
  obtain ⟨i, hi⟩ := Option.isSome_iff_exists.mp hsome
  unfold get
  rw [hi]
  exact ⟨_, rfl⟩

theorem release_ok_elim {cfg : Config} {h : Nat} {s s' : ProxyPool A}
    (hok : release cfg h s = .ok s') :
    ∃ i, s.pool.findIdx? (fun e => e == some h) = some i ∧
      s' = { s with
               ctxPool := s.ctxPool.set i ⟨none, true⟩
               available := s.available + 1 } := by
  unfold release at hok
  split at hok
  · cases hok
  · rename_i i heq
    injection hok with hok
    exact ⟨i, heq, hok.symm⟩

theorem poolInv_get {cfg : Config} {a : A} {s : ProxyPool A}
    {h : Option Nat} {s' : ProxyPool A}
    (hInv : PoolInv s) (hok : get cfg a s = .ok (h, s')) : PoolInv s' := by
  have hInv1 : PoolInv (growIfEmpty cfg s) := by
    unfold growIfEmpty
    split
    · exact poolInv_grow _ _ hInv
    · exact hInv
  obtain ⟨i, heq, _, hs⟩ := get_ok_elim hok
  obtain ⟨h1, h2, h3⟩ := hInv1
  obtain ⟨hlt, hpfree, -⟩ := List.findIdx?_eq_some_iff_getElem.mp heq
  have hcnt := countP_set_add (fun c => c.isFree) (growIfEmpty cfg s).ctxPool i
    ⟨some a, false⟩ hlt
  rw [hpfree] at hcnt
  simp at hcnt
  have hpos : 0 < freeCount (growIfEmpty cfg s).ctxPool := by
    unfold freeCount
    rw [List.countP_pos_iff]
    exact ⟨_, (growIfEmpty cfg s).ctxPool.getElem_mem hlt, hpfree⟩
  refine ⟨?_, ?_, ?_⟩
  · rw [hs]; simpa using h1
  · rw [hs]; simpa using h2
  · rw [hs]
    simp only [freeCount] at h3 hpos ⊢
    simp only [h3]
    omega

theorem poolInv_release {cfg : Config} {h : Nat} {s s' : ProxyPool A}
    (hInv : PoolInv s) (hu : inUse s h) (hok : release cfg h s = .ok s') :
    PoolInv s' := by
  obtain ⟨i, c, hfind, hget, hfree⟩ := hu
  obtain ⟨j, hfind', hs⟩ := release_ok_elim hok
  rw [hfind] at hfind'
  injection hfind' with hij
  subst hij
  obtain ⟨h1, h2, h3⟩ := hInv
  have hlt : i < s.ctxPool.length := by
    have := List.getElem?_eq_some.mp hget
    exact this.1
  have hgetc : s.ctxPool[i] = c := by
    have := List.getElem?_eq_some.mp hget
    exact this.2
  have hcnt := countP_set_add (fun c => c.isFree) s.ctxPool i ⟨none, true⟩ hlt
  rw [hgetc, hfree] at hcnt
  simp at hcnt
  refine ⟨?_, ?_, ?_⟩
  · rw [hs]; simpa using h1
  · rw [hs]; simpa using h2
  · rw [hs]
    simp only [freeCount] at h3 ⊢
    simp only [h3]
    omega

end ProxyPool

/-! ## Facts about `_prune` and `prune` -/

namespace ProxyPool

theorem le_intCeilDiv_mul (d : Nat) (hd : 0 < d) (n : Nat) (x : Int) (hx : 0 ≤ x) :
    x ≤ intCeilDiv (x * ((d : Int) + n)) d := by
  unfold intCeilDiv
  rw [Int.le_ediv_iff_mul_le (by exact_mod_cast hd)]
  have hxn : 0 ≤ x * (n : Int) := mul_nonneg hx (by positivity)
  have hd1 : (1 : Int) ≤ (d : Int) := by exact_mod_cast hd
  nlinarith

theorem initialSize_le_targetCapacity (cfg : Config) (s : ProxyPool A) :
    cfg.initialSize ≤ targetCapacity cfg s := by
  unfold targetCapacity
  generalize intCeilDiv (s.usedCapacity * ((cfg.gfDen : Int) + cfg.gfNum)) cfg.gfDen = X
  omega

theorem usedCapacity_le_targetCapacity (cfg : Config) (s : ProxyPool A)
    (hd : 0 < cfg.gfDen) (hx : 0 ≤ s.usedCapacity) :
    s.usedCapacity ≤ (targetCapacity cfg s : Int) := by
  have h1 := le_intCeilDiv_mul cfg.gfDen hd cfg.gfNum s.usedCapacity hx
  unfold targetCapacity
  generalize hX : intCeilDiv (s.usedCapacity * ((cfg.gfDen : Int) + cfg.gfNum)) cfg.gfDen = X
  rw [hX] at h1
  omega

theorem _prune_noop {cfg : Config} {s : ProxyPool A}
    (hle : s.capacity ≤ cfg.initialSize) : _prune cfg s = s := by
  unfold _prune
  rw [if_pos hle]

theorem _prune_capacity {cfg : Config} {s : ProxyPool A}
    (hgt : ¬ s.capacity ≤ cfg.initialSize) :
    (_prune cfg s).capacity = targetCapacity cfg s := by
  unfold _prune
  rw [if_neg hgt]

theorem pruneTaken_length {cfg : Config} {s : ProxyPool A}
    (hu : (usedPairs s).length ≤ targetCapacity cfg s) :
    (pruneTaken cfg s).length
      = min (targetCapacity cfg s - (usedPairs s).length) (freePairs s).length := by
  unfold pruneTaken
  rw [if_neg (not_lt.mpr hu)]
  exact List.length_take _ _

theorem pruneTaken_subset_freePairs {cfg : Config} {s : ProxyPool A} :
    ∀ a ∈ pruneTaken cfg s, a ∈ freePairs s := by
  intro a ha
  unfold pruneTaken at ha
  split at ha
  · exact ha
  · exact List.take_subset _ _ ha

theorem freeCount_prunedPairs (cfg : Config) (s : ProxyPool A) :
    freeCount ((prunedPairs cfg s).map Prod.fst) = (pruneTaken cfg s).length := by
  unfold freeCount prunedPairs
  rw [List.countP_map]
  simp only [List.countP_append]
  have hA : (usedPairs s).countP ((fun c => c.isFree) ∘ Prod.fst) = 0 := by
    rw [List.countP_eq_zero]
    intro a ha
    have := (List.mem_filter.mp ha).2
    simp only [Bool.not_eq_true'] at this
    simp [this]
  have hB : (pruneTaken cfg s).countP ((fun c => c.isFree) ∘ Prod.fst)
      = (pruneTaken cfg s).length := by
    rw [List.countP_eq_length]
    intro a ha
    have := (List.mem_filter.mp (pruneTaken_subset_freePairs a ha)).2
    simpa using this
  have hC : (List.replicate (targetCapacity cfg s - pruneFilled cfg s)
      (fillerPair A)).countP ((fun c => c.isFree) ∘ Prod.fst) = 0 := by
    simp [List.countP_replicate, fillerPair]
  rw [hA, hB, hC]
  omega

theorem poolInv_prune (cfg : Config) {s : ProxyPool A} (hd : 0 < cfg.gfDen)
    (hInv : PoolInv s) : PoolInv (_prune cfg s) := by
  obtain ⟨h1, h2, h3⟩ := hInv
  by_cases hle : s.capacity ≤ cfg.initialSize
  · rw [_prune_noop hle]; exact ⟨h1, h2, h3⟩
  have hzip_len : (s.ctxPool.zip s.pool).length = s.capacity := by
    simp [List.length_zip, h1, h2]
  have hsp : scannedPairs s = s.ctxPool.zip s.pool := by
    unfold scannedPairs
    rw [List.take_of_length_le (le_of_eq hzip_len)]
  have hcc := countP_add_countP_not (fun pr : Ctx A × Option Nat => pr.1.isFree)
    (scannedPairs s)
  have hsplit : (freePairs s).length + (usedPairs s).length = s.capacity := by
    unfold freePairs usedPairs
    rw [← List.countP_eq_length_filter, ← List.countP_eq_length_filter]
    rw [hsp] at hcc ⊢
    rw [hzip_len] at hcc
    exact hcc
  have hfreeCount : freeCount s.ctxPool = (freePairs s).length := by
    unfold freeCount freePairs
    rw [hsp, ← List.countP_eq_length_filter]
    exact (countP_zip_left (fun c => c.isFree) s.ctxPool s.pool (h1.trans h2.symm)).symm
  have hused_eq : ((usedPairs s).length : Int) = s.usedCapacity := by
    unfold usedCapacity
    rw [h3, hfreeCount]
    omega
  have hupos : (0 : Int) ≤ s.usedCapacity := by rw [← hused_eq]; positivity
  have htc := usedCapacity_le_targetCapacity cfg s hd hupos
  have hu : (usedPairs s).length ≤ targetCapacity cfg s := by omega
  have htl := @pruneTaken_length A cfg s hu
  have hfl : pruneFilled cfg s ≤ targetCapacity cfg s := by
    unfold pruneFilled
    omega
  have hpl : (prunedPairs cfg s).length = targetCapacity cfg s := by
    unfold prunedPairs
    simp only [List.length_append, List.length_replicate]
    unfold pruneFilled at hfl ⊢
    omega
  unfold _prune
  rw [if_neg hle]
  refine ⟨?_, ?_, ?_⟩
  · simpa using hpl
  · simpa using hpl
  · simp only
    rw [freeCount_prunedPairs]
    unfold pruneFilled
    push_cast
    ring

theorem prune_ok_elim {cfg : Config} {s s' : ProxyPool A}
    (hok : prune cfg s = .ok s') :
    cfg.strategy = .manual ∧ s' = _prune cfg s := by
  unfold prune at hok
  split at hok
  · rename_i heq
    injection hok with hok
    exact ⟨heq, hok.symm⟩
  · cases hok

end ProxyPool

/-! ## Capacity-bound and reachability lemmas -/

namespace ProxyPool

theorem leMax_grow {cfg : Config} {s : ProxyPool A} (n : Nat)
    (h : leMax s.capacity cfg.maxSize = true) :
    leMax (grow cfg n s).capacity cfg.maxSize = true := by
  rw [grow_capacity]
  cases hm : cfg.maxSize with
  | none => simp [leMax, hm]
  | some m =>
    simp only [leMax, hm, decide_eq_true_eq] at h
    simp only [growAmount, leMax, hm, decide_eq_true_eq]
    omega

theorem mkPool_leMax (cfg : Config) :
    leMax (mkPool cfg : ProxyPool A).capacity cfg.maxSize = true := by
  have hbase : leMax (⟨[], [], 0, 0, 1⟩ : ProxyPool A).capacity cfg.maxSize = true := by
    unfold leMax
    cases cfg.maxSize with
    | none => rfl
    | some m => simp
  unfold mkPool
  split
  · exact leMax_grow _ hbase
  · exact hbase

end ProxyPool

theorem reach_poolInv {A : Type} {cfg : Config} {ap : Bool} {s : ProxyPool A}
    (hd : 0 < cfg.gfDen) (hr : Reach cfg ap true s) : PoolInv s := by
  induction hr with
  | init => exact ProxyPool.poolInv_mkPool cfg
  | step_get _ hg ih => exact ProxyPool.poolInv_get ih hg
  | step_release _ hdisc hrel ih => exact ProxyPool.poolInv_release ih (hdisc rfl) hrel
  | step_prune _ _ hp ih =>
    obtain ⟨-, hs⟩ := ProxyPool.prune_ok_elim hp
    rw [hs]
    exact ProxyPool.poolInv_prune cfg hd ih

theorem reach_leMax {A : Type} {cfg : Config} {d : Bool} {s : ProxyPool A}
    (hr : Reach cfg false d s) : leMax s.capacity cfg.maxSize = true := by
  induction hr with
  | init => exact ProxyPool.mkPool_leMax cfg
  | step_get _ hg ih =>
    rw [ProxyPool.get_capacity_of_ok hg]
    unfold ProxyPool.growIfEmpty
    split
    · exact ProxyPool.leMax_grow _ ih
    · exact ih
  | step_release _ _ hrel ih =>
    obtain ⟨i, _, hs⟩ := ProxyPool.release_ok_elim hrel
    rw [hs]
    exact ih
  | step_prune hap _ _ _ => exact Bool.noConfusion hap

/-! ## Claims -/

/-- Claim C1: for any pool state with `available == 0`, a checkout grows the
pool so that the new capacity is `c0 + ceil(c0 * growthFactor) + 1`, capped at
`maxSize` (stated for `c0 < maxSize`, as in the claim); and with
`initialSize = 1` and the default growth factor `0.2`, fifteen sequential
checkouts with no releases leave `capacity == 17` and `usedCapacity == 15`. -/
theorem C1_growth_formula :
    (∀ (A : Type) (cfg : Config) (a : A) (s : ProxyPool A) (h : Option Nat)
        (s' : ProxyPool A),
        s.available = 0 → ltMax s.capacity cfg.maxSize = true →
        ProxyPool.get cfg a s = .ok (h, s') →
        s'.capacity
          = capMin (s.capacity + ProxyPool.ceilMulGF cfg s.capacity + 1)
              cfg.maxSize) ∧
    (getMany cfgA 15 (ProxyPool.mkPool cfgA)).map
        (fun p => (p.2.capacity, p.2.usedCapacity)) = .ok (17, 15) := by
  constructor
  · intro A cfg a s h s' hav hlt hok
    rw [ProxyPool.get_capacity_of_ok hok]
    unfold ProxyPool.growIfEmpty
    rw [if_pos (le_of_eq hav)]
    rw [ProxyPool.grow_capacity]
    cases hm : cfg.maxSize with
    | none => simp [ProxyPool.growAmount, capMin, hm]; omega
    | some m =>
      simp only [ltMax, hm, decide_eq_true_eq] at hlt
      simp only [ProxyPool.growAmount, capMin, hm]
      omega
  · decide

/-- Witness for `C1_growth_formula`: the `cfgM2` pool after one checkout has
`available = 0` and `capacity = 1 < maxSize = 2`; a second checkout yields
`capacity = min(1 + ceil(1 * 0.2) + 1, 2) = 2`. -/
theorem C1_growth_formula_witness :
    tM2.capacity
      = capMin (tM1.capacity + ProxyPool.ceilMulGF cfgM2 tM1.capacity + 1)
          cfgM2.maxSize :=
  C1_growth_formula.1 Nat cfgM2 0 tM1 (some 2) tM2 (by decide) (by decide)
    (by decide)

/-- Claim C2: `_prune` is a no-op (state unchanged) when
`capacity <= initialSize`; otherwise it sets `capacity` to
`max(initialSize, ceil(usedCapacity * (1 + growthFactor)))` (that expression
is `targetCapacity`); and in scenario C (15 checkouts from `initialSize = 1`,
release all 15, manual prune) capacity returns to exactly `initialSize = 1`
with `usedCapacity = 0`. -/
theorem C2_prune_policy :
    (∀ (A : Type) (cfg : Config) (s : ProxyPool A),
        s.capacity ≤ cfg.initialSize → ProxyPool._prune cfg s = s) ∧
    (∀ (A : Type) (cfg : Config) (s : ProxyPool A),
        cfg.initialSize < s.capacity →
        (ProxyPool._prune cfg s).capacity = ProxyPool.targetCapacity cfg s) ∧
    ((getMany cfgA 15 (ProxyPool.mkPool cfgA)).bind
        (fun p => releaseMany cfgA p.1 p.2) |>.bind
        (fun s => ProxyPool.prune cfgA s) |>.map
        (fun s => (s.capacity, s.usedCapacity))) = .ok (1, 0) := by
  refine ⟨?_, ?_, by decide⟩
  · intro A cfg s hle
    exact ProxyPool._prune_noop hle
  · intro A cfg s hgt
    exact ProxyPool._prune_capacity (not_le.mpr hgt)

/-- Witness for `C2_prune_policy`: a freshly constructed `cfgA` pool has
`capacity = initialSize`, so prune leaves it unchanged; the three-checkout
state `s3A` has `capacity = 3 > 1`, so prune sets its capacity to the target
formula. -/
theorem C2_prune_policy_witness :
    ProxyPool._prune cfgA (ProxyPool.mkPool cfgA : ProxyPool Nat)
        = (ProxyPool.mkPool cfgA : ProxyPool Nat) ∧
    (ProxyPool._prune cfgA s3A).capacity = ProxyPool.targetCapacity cfgA s3A :=
  ⟨C2_prune_policy.1 Nat cfgA (ProxyPool.mkPool cfgA) (by decide),
   C2_prune_policy.2.1 Nat cfgA s3A (by decide)⟩

/-- Claim C3, counterexample: the claim predicts that after a prune
`available = targetCapacity - usedCountAtStart`.  Starting from
`initialSize = 1`, three checkouts reach the fully used state `s3A` with
`capacity = 3`; its target capacity `max(1, ceil(3 * 1.2)) = 4` *exceeds* the
old capacity, the rebuild runs out of slots to copy after 3, and the code sets
`available = filled - used = 0`, not `4 - 3 = 1`. -/
theorem C3_prune_available_counterexample :
    getMany cfgA 3 (ProxyPool.mkPool cfgA) = .ok ([some 1, some 2, some 3], s3A) ∧
    cfgA.initialSize < s3A.capacity ∧
    ProxyPool.targetCapacity cfgA s3A = 4 ∧
    (ProxyPool.usedPairs s3A).length = 3 ∧
    (ProxyPool._prune cfgA s3A).available = 0 ∧
    (ProxyPool.targetCapacity cfgA s3A : Int)
        - ((ProxyPool.usedPairs s3A).length : Int)
      ≠ (ProxyPool._prune cfgA s3A).available := by decide

/-- Claim C3, amended: for every pool state with `capacity > initialSize` whose
arrays have `capacity` entries and whose used-slot count does not exceed the
counter-derived `usedCapacity` (both hold in every reachable well-formed
state), after prune the available counter equals
`min(capacityAtStart, targetCapacity) - usedCountAtStart`; the `min` is what
the counterexample forces, since the second copy loop can exhaust the old
table before reaching `targetCapacity`. -/
theorem C3_prune_available_amended :
    ∀ (A : Type) (cfg : Config) (s : ProxyPool A),
      0 < cfg.gfDen →
      s.ctxPool.length = s.capacity →
      s.pool.length = s.capacity →
      ((ProxyPool.usedPairs s).length : Int) ≤ s.usedCapacity →
      cfg.initialSize < s.capacity →
      (ProxyPool._prune cfg s).available =
        ((min s.capacity (ProxyPool.targetCapacity cfg s) : Nat) : Int)
          - ((ProxyPool.usedPairs s).length : Int) := by
  intro A cfg s hd h1 h2 hcnt hgt
  have hzip_len : (s.ctxPool.zip s.pool).length = s.capacity := by
    simp [List.length_zip, h1, h2]
  have hsp : ProxyPool.scannedPairs s = s.ctxPool.zip s.pool := by
    unfold ProxyPool.scannedPairs
    rw [List.take_of_length_le (le_of_eq hzip_len)]
  have hcc := countP_add_countP_not (fun pr : Ctx A × Option Nat => pr.1.isFree)
    (ProxyPool.scannedPairs s)
  have hsplit : (ProxyPool.freePairs s).length + (ProxyPool.usedPairs s).length
      = s.capacity := by
    unfold ProxyPool.freePairs ProxyPool.usedPairs
    rw [← List.countP_eq_length_filter, ← List.countP_eq_length_filter]
    rw [hsp] at hcc ⊢
    rw [hzip_len] at hcc
    exact hcc
  have hnn : (0 : Int) ≤ s.usedCapacity := le_trans (by positivity) hcnt
  have htc := ProxyPool.usedCapacity_le_targetCapacity cfg s hd hnn
  have hu : (ProxyPool.usedPairs s).length ≤ ProxyPool.targetCapacity cfg s := by
    omega
  have htl := @ProxyPool.pruneTaken_length A cfg s hu
  unfold ProxyPool._prune
  rw [if_neg (not_le.mpr hgt)]
  dsimp only
  unfold ProxyPool.pruneFilled
  rw [htl]
  push_cast
  omega

/-- Witness for `C3_prune_available_amended`: the two-slot all-free pool `sW2`
has `capacity = 2 > initialSize = 1`, no used slots, and target capacity 1;
after prune `available = min(2, 1) - 0 = 1`. -/
theorem C3_prune_available_amended_witness :
    (ProxyPool._prune cfgA sW2).available =
      ((min sW2.capacity (ProxyPool.targetCapacity cfgA sW2) : Nat) : Int)
        - ((ProxyPool.usedPairs sW2).length : Int) :=
  C3_prune_available_amended Nat cfgA sW2 (by decide) (by decide) (by decide)
    (by decide) (by decide)

/-- Claim C4: prune never drops a used slot: whenever `_prune` rebuilds the
table (`capacity > initialSize`), the used `(slot, handle)` pairs of the
scanned range, in original index order, form a prefix of the rebuilt
`(slot, handle)` pairing — every used slot survives together with its
originally paired handle, in the first positions, in order. -/
theorem C4_prune_preserves_used :
    ∀ (A : Type) (cfg : Config) (s : ProxyPool A),
      cfg.initialSize < s.capacity →
      ProxyPool.usedPairs s <+:
        ((ProxyPool._prune cfg s).ctxPool).zip ((ProxyPool._prune cfg s).pool) := by
  intro A cfg s hgt
  unfold ProxyPool._prune
  rw [if_neg (not_le.mpr hgt)]
  dsimp only
  rw [zip_of_map_fst_snd]
  unfold ProxyPool.prunedPairs
  exact ⟨_, (List.append_assoc _ _ _).symm⟩

/-- Witness for `C4_prune_preserves_used` at the fully used three-slot state
`s3A`. -/
theorem C4_prune_preserves_used_witness :
    cfgA.initialSize < s3A.capacity ∧
    ProxyPool.usedPairs s3A <+:
      ((ProxyPool._prune cfgA s3A).ctxPool).zip ((ProxyPool._prune cfgA s3A).pool) :=
  ⟨by decide, C4_prune_preserves_used Nat cfgA s3A (by decide)⟩

/-- Claim C5, counterexample: the invariant `0 <= available <= capacity <= maxSize`
fails on reachable states.  (1) A checkout followed by a double release of the
same handle (which the code accepts) reaches `sBadA` with
`available = 2 > capacity = 1`.  (2) With `maxSize = 2`, two checkouts reach a
fully used pool at `maxSize`; a manual prune then *raises* capacity to the
target `ceil(2 * 1.2) = 3 > maxSize`. -/
theorem C5_invariant_counterexample :
    (Reach (A := Nat) cfgA true false sBadA ∧
      ¬ sBadA.available ≤ (sBadA.capacity : Int)) ∧
    (Reach (A := Nat) cfgM2 true false tM3 ∧
      leMax tM3.capacity cfgM2.maxSize = false) := by
  constructor
  · constructor
    · exact Reach.step_release
        (Reach.step_release
          (Reach.step_get Reach.init
            (show ProxyPool.get cfgA 0 (ProxyPool.mkPool cfgA) = .ok (some 1, sA1)
              by decide))
          (fun hco => Bool.noConfusion hco)
          (show ProxyPool.release cfgA 1 sA1 = .ok sA2 by decide))
        (fun hco => Bool.noConfusion hco)
        (show ProxyPool.release cfgA 1 sA2 = .ok sBadA by decide)
    · decide
  · constructor
    · exact Reach.step_prune rfl
        (Reach.step_get
          (Reach.step_get Reach.init
            (show ProxyPool.get cfgM2 0 (ProxyPool.mkPool cfgM2) = .ok (some 1, tM1)
              by decide))
          (show ProxyPool.get cfgM2 0 tM1 = .ok (some 2, tM2) by decide))
        (show ProxyPool.prune cfgM2 tM2 = .ok tM3 by decide)
    · decide

/-- Claim C5, amended: for every valid configuration, `0 <= available <= capacity`
holds in every state reachable by checkout, prune, and *disciplined* release
(each release targets an owned handle whose slot is currently in use), and
`capacity <= maxSize` holds in every state reachable without prune (under any
release discipline).  The unrestricted claim fails: double release drives
`available` above `capacity`, and pruning a fully used pool can drive
`capacity` above `maxSize`. -/
theorem C5_invariant_amended :
    ∀ (A : Type) (cfg : Config), validConfig cfg = true →
      (∀ s : ProxyPool A, Reach cfg true true s →
          0 ≤ s.available ∧ s.available ≤ (s.capacity : Int)) ∧
      (∀ (s : ProxyPool A) (d : Bool), Reach cfg false d s →
          leMax s.capacity cfg.maxSize = true) := by
  intro A cfg hv
  have hd : 0 < cfg.gfDen := by
    simp only [validConfig, Bool.and_eq_true, decide_eq_true_eq] at hv
    exact hv.2
  constructor
  · intro s hr
    obtain ⟨h1, h2, h3⟩ := reach_poolInv hd hr
    have hle : freeCount s.ctxPool ≤ s.ctxPool.length :=
      List.countP_le_length _
    constructor
    · rw [h3]; positivity
    · rw [h3]; omega
  · intro s d hr
    exact reach_leMax hr

/-- Witness for `C5_invariant_amended` at the freshly constructed pools. -/
theorem C5_invariant_amended_witness :
    (0 ≤ (ProxyPool.mkPool cfgA : ProxyPool Nat).available ∧
      (ProxyPool.mkPool cfgA : ProxyPool Nat).available
        ≤ ((ProxyPool.mkPool cfgA : ProxyPool Nat).capacity : Int)) ∧
    leMax (ProxyPool.mkPool cfgM2 : ProxyPool Nat).capacity cfgM2.maxSize = true :=
  ⟨(C5_invariant_amended Nat cfgA (by decide)).1 _ Reach.init,
   (C5_invariant_amended Nat cfgM2 (by decide)).2 _ true Reach.init⟩

/-- Claim C6, counterexample: checkout *can* fail by itself.  With
`initialSize = 1` and `maxSize = 2`, two checkouts reach a fully used pool at
`maxSize` (`capacity = 2`, `available = 0`); on the third checkout growth adds
zero slots, the free-slot scan finds nothing, and the code faults (the scan's
`-1` index raises a `TypeError`) instead of returning a handle. -/
theorem C6_checkout_counterexample :
    (getMany cfgM2 2 (ProxyPool.mkPool cfgM2)).map
        (fun p => (p.2.capacity, p.2.available)) = .ok (2, 0) ∧
    cfgM2.maxSize = some 2 ∧
    getMany cfgM2 3 (ProxyPool.mkPool cfgM2) = .error .noFreeSlot := by decide

/-- Claim C6, amended: checkout succeeds (returns a handle, raising no error)
whenever the pool is not simultaneously at `maxSize` and without a free slot:
if `available <= 0` and `capacity < maxSize` the growth step provides a free
slot, and if any slot is free the scan finds one. -/
theorem C6_checkout_amended :
    ∀ (A : Type) (cfg : Config) (a : A) (s : ProxyPool A),
      (s.available ≤ 0 ∧ ltMax s.capacity cfg.maxSize = true) ∨
        (∃ c ∈ s.ctxPool, c.isFree = true) →
      ∃ r, ProxyPool.get cfg a s = .ok r := by
  intro A cfg a s hyp
  apply ProxyPool.get_ok_of_free
  unfold ProxyPool.growIfEmpty
  rcases hyp with ⟨hav, hlt⟩ | ⟨c, hc, hfree⟩
  · rw [if_pos hav, ProxyPool.grow_ctxPool]
    have hpos : 0 < ProxyPool.growAmount cfg
        (ProxyPool.ceilMulGF cfg s.capacity + 1) s.capacity := by
      cases hm : cfg.maxSize with
      | none => simp [ProxyPool.growAmount, hm]
      | some m =>
        simp only [ltMax, hm, decide_eq_true_eq] at hlt
        simp only [ProxyPool.growAmount, hm]
        omega
    exact ⟨⟨none, true⟩,
      List.mem_append_right _ (List.mem_replicate.mpr ⟨by omega, rfl⟩), rfl⟩
  · split
    · exact ⟨c, by rw [ProxyPool.grow_ctxPool]; exact List.mem_append_left _ hc,
        hfree⟩
    · exact ⟨c, hc, hfree⟩

/-- Witness for `C6_checkout_amended`: the `cfgM2` pool after one checkout has
`available = 0` and `capacity = 1 < maxSize = 2`, and its checkout succeeds. -/
theorem C6_checkout_amended_witness :
    ∃ r, ProxyPool.get cfgM2 0 tM1 = .ok r :=
  C6_checkout_amended Nat cfgM2 0 tM1 (Or.inl ⟨by decide, by decide⟩)

/-- Claim C7: releasing a handle the pool does not own (no entry of the handle
array is identical to it) fails with the unowned-handle error; in the source
the `throw` happens before any field write, so no state is mutated — here the
error result carries no successor state at all. -/
theorem C7_release_unowned :
    ∀ (A : Type) (cfg : Config) (s : ProxyPool A) (h : Nat),
      some h ∉ s.pool →
      ProxyPool.release cfg h s = .error .unownedHandle := by
  intro A cfg s h hmem
  have hnone : s.pool.findIdx? (fun e => e == some h) = none := by
    rw [List.findIdx?_eq_none_iff]
    intro x hx
    rw [beq_eq_false_iff_ne]
    intro hxe
    exact hmem (hxe ▸ hx)
  unfold ProxyPool.release
  rw [hnone]

/-- Witness for `C7_release_unowned`: handle 99 is not owned by the one-slot
pool `sA1`. -/
theorem C7_release_unowned_witness :
    ProxyPool.release cfgA 99 sA1 = .error .unownedHandle :=
  C7_release_unowned Nat cfgA sA1 99 (by decide)

/-- Claim C8: the public `prune()` fails with the wrong-strategy error (and
produces no successor state) whenever the strategy is not `MANUAL`, and for
the `MANUAL` strategy it runs `_prune` directly on any state. -/
theorem C8_prune_strategy_gate :
    ∀ (A : Type) (cfg : Config) (s : ProxyPool A),
      (cfg.strategy ≠ .manual →
        ProxyPool.prune cfg s = .error .wrongStrategy) ∧
      (cfg.strategy = .manual →
        ProxyPool.prune cfg s = .ok (ProxyPool._prune cfg s)) := by
  intro A cfg s
  constructor
  · intro hne
    unfold ProxyPool.prune
    cases hcs : cfg.strategy with
    | manual => exact absurd hcs hne
    | onFixedInterval => rfl
    | onUsageThreshold => rfl
  · intro heq
    unfold ProxyPool.prune
    rw [heq]

/-- Witness for `C8_prune_strategy_gate`: a `cfgFI` (fixed-interval) pool
rejects manual pruning; a `cfgA` (manual) pool accepts it. -/
theorem C8_prune_strategy_gate_witness :
    ProxyPool.prune cfgFI (ProxyPool.mkPool cfgFI : ProxyPool Nat)
        = .error .wrongStrategy ∧
    ProxyPool.prune cfgA (ProxyPool.mkPool cfgA : ProxyPool Nat)
        = .ok (ProxyPool._prune cfgA (ProxyPool.mkPool cfgA)) :=
  ⟨(C8_prune_strategy_gate Nat cfgFI (ProxyPool.mkPool cfgFI)).1 (by decide),
   (C8_prune_strategy_gate Nat cfgA (ProxyPool.mkPool cfgA)).2 rfl⟩

/-- Claim C9 (scenario D): with `initialSize = 2`, fifteen rounds of
"check out two handles, release both" each return exactly the same two handle
objects as the first round, in the same order (`[some 1, some 2]` every
round); the final `capacity = 2` and `nextHandle = 3` — unchanged since
construction — show that no growth occurred and no new handle was ever
allocated. -/
theorem C9_handle_identity_reuse :
    (rounds cfgD 15 (ProxyPool.mkPool cfgD)).map
        (fun p => (p.1, p.2.capacity, p.2.nextHandle)) =
      .ok (List.replicate 15 [some 1, some 2], 2, 3) := by decide

/-- Claim C10: `release` never checks the target slot's `isFree` flag: releasing
an owned handle whose slot is already free raises no error and still
increments `available`; concretely, checking one handle out of a fresh
`initialSize = 1` pool and then releasing it twice leaves
`available = 2`, exceeding both the free-slot count (1) and `capacity` (1). -/
theorem C10_release_unchecked_free :
    (∀ (A : Type) (cfg : Config) (s : ProxyPool A) (h i : Nat) (c : Ctx A),
        s.pool.findIdx? (fun e => e == some h) = some i →
        s.ctxPool[i]? = some c → c.isFree = true →
        ∃ s', ProxyPool.release cfg h s = .ok s' ∧
          s'.available = s.available + 1) ∧
    (releaseMany cfgA [some 1, some 1] sA1 = .ok sBadA ∧
      (sBadA.capacity : Int) < sBadA.available ∧
      (freeCount sBadA.ctxPool : Int) < sBadA.available) := by
  constructor
  · intro A cfg s h i c hfind _ _
    refine ⟨⟨s.ctxPool.set i ⟨none, true⟩, s.pool, s.available + 1,
      s.capacity, s.nextHandle⟩, ?_, rfl⟩
    unfold ProxyPool.release
    rw [hfind]
  · decide

/-- Witness for `C10_release_unchecked_free`: in `sA2` handle 1 is owned and
its slot is already free; releasing it again succeeds and increments
`available`. -/
theorem C10_release_unchecked_free_witness :
    ∃ s', ProxyPool.release cfgA 1 sA2 = .ok s' ∧
      s'.available = sA2.available + 1 :=
  C10_release_unchecked_free.1 Nat cfgA sA2 1 0 ⟨none, true⟩ (by decide)
    (by decide) (by decide)
